import Mathlib

/-!
Verification of the display pipeline of `display.py` (WeakLensingDeblending).

The pipeline's arithmetic is embedded shallowly over exact rationals:
pixel values, coordinates and scales become `ℚ`, images become lists of
pixel values, and the few genuinely real-valued operations (`np.sqrt`,
`np.degrees`) are stated over `ℝ`.
-/

namespace Display

/-! ### Viewport resolver (display.py lines 192-223)

An explicit `--view-region` rectangle, given in arcseconds relative to the
image center, is converted to floating-point pixel coordinates relative to
the bottom-left corner and then to integer pixel bounds. -/

/-- Physical (arcsec, center-relative) coordinate to floating-point pixel
coordinate: `xmin = xmin/scale + 0.5*results.survey.image_width`
(display.py lines 201-204). `dim` is the image dimension along this axis. -/
def toPixel (phys scale dim : ℚ) : ℚ :=
  phys / scale + (1 / 2) * dim

/-- Lower integer pixel bound: `int(math.floor(xmin))` (display.py line 207). -/
def viewBoundLo (p : ℚ) : ℤ := ⌊p⌋

/-- Upper (inclusive) integer pixel bound: `int(math.ceil(xmax))-1`
(display.py lines 207-208). -/
def viewBoundHi (p : ℚ) : ℤ := ⌈p⌉ - 1

/-- Pixel coordinate back to physical arcsec relative to the image center:
`vxmin = (xmin - 0.5*results.survey.image_width)*scale`
(display.py lines 217-220). -/
def toPhysical (pixel scale dim : ℚ) : ℚ :=
  (pixel - (1 / 2) * dim) * scale

theorem toPhysical_toPixel (phys scale dim : ℚ) (hs : scale ≠ 0) :
    toPhysical (toPixel phys scale dim) scale dim = phys := by
  unfold toPhysical toPixel
  field_simp
  ring

/-! ### C1: resolved pixel bounds cover the requested physical extent -/

/-- C1: for a valid axis extent `lo < hi` and positive pixel scale, the
integer pixel bounds `[floor(toPixel lo), ceil(toPixel hi) - 1]` resolved by
the viewport transform fully contain the requested physical extent: the
lower bound maps back to a physical coordinate `≤ lo`, and the inclusive
upper bound plus one pixel maps back to a physical coordinate `≥ hi`.
Instantiating the axis with (xmin, xmax, image_width) and
(ymin, ymax, image_height) gives the x and y statements of the claim. -/
theorem view_bounds_cover_requested_extent (lo hi scale dim : ℚ)
    (hs : 0 < scale) (hlt : lo < hi) :
    toPhysical ((viewBoundLo (toPixel lo scale dim) : ℚ)) scale dim ≤ lo ∧
    hi ≤ toPhysical ((viewBoundHi (toPixel hi scale dim) : ℚ) + 1) scale dim := by
  constructor
  · have hfloor : ((viewBoundLo (toPixel lo scale dim) : ℚ)) ≤ toPixel lo scale dim :=
      Int.floor_le _
    have hmono : toPhysical ((viewBoundLo (toPixel lo scale dim) : ℚ)) scale dim ≤
        toPhysical (toPixel lo scale dim) scale dim := by
      unfold toPhysical
      exact mul_le_mul_of_nonneg_right (sub_le_sub_right hfloor _) hs.le
    calc toPhysical ((viewBoundLo (toPixel lo scale dim) : ℚ)) scale dim
        ≤ toPhysical (toPixel lo scale dim) scale dim := hmono
      _ = lo := toPhysical_toPixel lo scale dim hs.ne'
  · have hceil : toPixel hi scale dim ≤ ((viewBoundHi (toPixel hi scale dim) : ℚ) + 1) := by
      unfold viewBoundHi
      push_cast
      have := Int.le_ceil (toPixel hi scale dim)
      linarith
    have hmono : toPhysical (toPixel hi scale dim) scale dim ≤
        toPhysical ((viewBoundHi (toPixel hi scale dim) : ℚ) + 1) scale dim := by
      unfold toPhysical
      exact mul_le_mul_of_nonneg_right (sub_le_sub_right hceil _) hs.le
    calc hi = toPhysical (toPixel hi scale dim) scale dim :=
          (toPhysical_toPixel hi scale dim hs.ne').symm
      _ ≤ toPhysical ((viewBoundHi (toPixel hi scale dim) : ℚ) + 1) scale dim := hmono

/-- Witness for C1 at the concrete view region `[-5,5]` with
`scale = 0.2`, `dim = 100`. -/
theorem view_bounds_cover_requested_extent_witness :
    (0 : ℚ) < 1 / 5 ∧ (-5 : ℚ) < 5 ∧
    (toPhysical ((viewBoundLo (toPixel (-5) (1 / 5) 100) : ℚ)) (1 / 5) 100 ≤ -5 ∧
      (5 : ℚ) ≤ toPhysical ((viewBoundHi (toPixel 5 (1 / 5) 100) : ℚ) + 1) (1 / 5) 100) :=
  ⟨by norm_num, by norm_num,
    view_bounds_cover_requested_extent (-5) 5 (1 / 5) 100 (by norm_num) (by norm_num)⟩

/-! ### C2: the concrete scenario region `[-5,5,-5,5]`, scale 0.2, 100 x 100 -/

/-- C2 counterexample: for the view region `[-5,5,-5,5]` with pixel scale
`0.2` and `image_width = image_height = 100`, the resolver computes the
floating-point pixel bound `xmin = -5/0.2 + 0.5*100 = 25`, not `225` as the
claim states, and the resolved integer bounds are `[25,74]`, not
`[225,274]`. -/
theorem viewport_scenario_counterexample :
    toPixel (-5) (1 / 5) 100 = 25 ∧ toPixel (-5) (1 / 5) 100 ≠ 225 ∧
    viewBoundLo (toPixel (-5) (1 / 5) 100) = 25 ∧
    viewBoundLo (toPixel (-5) (1 / 5) 100) ≠ 225 := by
  have h1 : toPixel (-5) (1 / 5) 100 = 25 := by norm_num [toPixel]
  exact ⟨h1, by rw [h1]; norm_num, by rw [h1]; decide, by rw [h1]; decide⟩

/-- C2 amended: for the view region string `[-5,5,-5,5]` with pixel scale
`0.2` and `image_width = image_height = 100`, the resolver computes the
floating-point pixel bounds `xmin = 25.0`, `xmax = 75.0` (and the same for
y, as the y inputs are identical), and resolves the integer pixel bounds
to `[25,74]` inclusive on each axis. -/
theorem viewport_scenario_amended :
    toPixel (-5) (1 / 5) 100 = 25 ∧ toPixel 5 (1 / 5) 100 = 75 ∧
    viewBoundLo (toPixel (-5) (1 / 5) 100) = 25 ∧
    viewBoundHi (toPixel 5 (1 / 5) 100) = 74 := by
  have h1 : toPixel (-5) (1 / 5) 100 = 25 := by norm_num [toPixel]
  have h2 : toPixel 5 (1 / 5) 100 = 75 := by norm_num [toPixel]
  refine ⟨h1, h2, ?_, ?_⟩
  · rw [h1]; decide
  · rw [h2]; decide

/-! ### Image compositor buffers (display.py lines 242-255)

`background` and `highlighted` are zero-filled buffers sized to the view;
the survey image (resp. the selected sub-image) is copied in where it
overlaps the view unless the corresponding hide flag is set. We model a
buffer as the flat list of its pixel values after this copy step:
`surveyView` holds the survey pixels restricted to the view (zero where
there is no overlap) and `selectedView` likewise for the selected
sub-image, `none` when no selected image exists. -/

/-- Number of non-zero pixels in a buffer, as in `np.count_nonzero`
(display.py lines 252-253). -/
def countNonzero (xs : List ℚ) : ℕ :=
  (xs.filter fun p => p != 0).length

/-- The background buffer: zero-filled unless `--hide-background` is unset,
in which case it holds the survey pixels overlapping the view
(display.py lines 242-247). -/
def backgroundBuffer (hideBackground : Bool) (surveyView : List ℚ) : List ℚ :=
  if hideBackground then List.replicate surveyView.length 0 else surveyView

/-- The highlighted buffer: zero-filled unless `--hide-selected` is unset
and a selected sub-image exists, in which case it holds the selected pixels
overlapping the view (display.py lines 243, 248-251). `n` is the number of
view pixels. -/
def highlightBuffer (hideSelected : Bool) (selectedView : Option (List ℚ))
    (n : ℕ) : List ℚ :=
  if hideSelected then List.replicate n 0
  else selectedView.getD (List.replicate n 0)

/-- The empty-view failure test: the pipeline aborts with "There are no
non-zero pixel values in the view window." exactly when
`np.count_nonzero(highlighted.array) == 0` and
(`args.hide_background` or `np.count_nonzero(background.array) == 0`)
(display.py lines 252-255). -/
def emptyView (hideBackground hideSelected : Bool) (surveyView : List ℚ)
    (selectedView : Option (List ℚ)) : Bool :=
  countNonzero (highlightBuffer hideSelected selectedView surveyView.length) == 0 &&
    (hideBackground || countNonzero (backgroundBuffer hideBackground surveyView) == 0)

theorem countNonzero_eq_zero_iff (xs : List ℚ) :
    countNonzero xs = 0 ↔ ∀ p ∈ xs, p = 0 := by
  unfold countNonzero
  rw [List.length_eq_zero, List.filter_eq_nil]
  constructor
  · intro h p hp
    have := h p hp
    simpa using this
  · intro h p hp
    simpa using h p hp

/-! ### C3: the empty-view failure condition -/

/-- C3: the compositor fails with the empty-view error exactly when the
highlight buffer is entirely zero and either the background is hidden or
the background buffer is also entirely zero; in particular, invoking the
compositor with both `hide_background = true` and `hide_selected = true`
fails with the empty-view error, for any survey and selected pixels. -/
theorem empty_view_error_iff (hideBackground hideSelected : Bool)
    (surveyView : List ℚ) (selectedView : Option (List ℚ)) :
    (emptyView hideBackground hideSelected surveyView selectedView = true ↔
      ((∀ p ∈ highlightBuffer hideSelected selectedView surveyView.length, p = 0) ∧
        (hideBackground = true ∨
          ∀ p ∈ backgroundBuffer hideBackground surveyView, p = 0))) ∧
    emptyView true true surveyView selectedView = true := by
  constructor
  · unfold emptyView
    rw [Bool.and_eq_true, Bool.or_eq_true, beq_iff_eq, beq_iff_eq,
      countNonzero_eq_zero_iff, countNonzero_eq_zero_iff]
  · unfold emptyView highlightBuffer backgroundBuffer
    simp [countNonzero]

/-! ### Z-scaling (display.py lines 265-283)

Pixels are clipped to `[vmin, vmax]`, normalized, then passed through
the square-root stretch `zscale(pixels) = np.sqrt(pixels)`. -/

/-- Elementwise clip, as in `np.clip(pixels, vmin, vmax)`: values below
`lo` become `lo`, values above `hi` become `hi` (with `hi` winning when
`lo > hi`, as in numpy). -/
def clipQ (p lo hi : ℚ) : ℚ := min (max p lo) hi

/-- The clipped-and-normalized pixel value
`(np.clip(pixels, vmin, vmax) - vmin)/(vmax - vmin)` fed to the
square-root stretch (display.py lines 278, 283). -/
def zscaleNorm (p vmin vmax : ℚ) : ℚ :=
  (clipQ p vmin vmax - vmin) / (vmax - vmin)

/-- Elementwise application over a pixel buffer, producing the argument of
`zscale` for every pixel of `highlighted_z` and `background_z`
(display.py lines 278, 283). -/
def zscaleNormArr (arr : List ℚ) (vmin vmax : ℚ) : List ℚ :=
  arr.map fun p => zscaleNorm p vmin vmax

theorem zscaleNorm_nonneg (p vmin vmax : ℚ) (h : vmin < vmax) :
    0 ≤ zscaleNorm p vmin vmax := by
  unfold zscaleNorm clipQ
  apply div_nonneg
  · simp only [sub_nonneg, le_min_iff, le_max_iff]
    exact ⟨Or.inr le_rfl, h.le⟩
  · linarith

theorem zscaleNorm_le_one (p vmin vmax : ℚ) (h : vmin < vmax) :
    zscaleNorm p vmin vmax ≤ 1 := by
  unfold zscaleNorm clipQ
  rw [div_le_one (by linarith)]
  have : min (max p vmin) vmax ≤ vmax := min_le_right _ _
  linarith

/-! ### C6: clip-normalize-sqrt z-scaling -/

/-- C6: for clipping bounds `vmin < vmax`, every entry of the elementwise
z-scaled buffer `sqrt(zscaleNorm)` lies in `[0,1]` (this covers both
`background_z` and `highlighted_z`); moreover at `vmin = 2`, `vmax = 102`,
pixel value `52`, the normalized value is exactly `1/2` and its
square-root stretch lies in `(0.7071, 0.7072)`, i.e. is `≈ 0.7071`. -/
theorem zscale_in_unit_interval (arr : List ℚ) (vmin vmax : ℚ)
    (h : vmin < vmax) :
    (∀ q ∈ zscaleNormArr arr vmin vmax,
      0 ≤ Real.sqrt (q : ℝ) ∧ Real.sqrt (q : ℝ) ≤ 1) ∧
    zscaleNorm 52 2 102 = 1 / 2 ∧
    (0.7071 : ℝ) < Real.sqrt ((zscaleNorm 52 2 102 : ℚ) : ℝ) ∧
    Real.sqrt ((zscaleNorm 52 2 102 : ℚ) : ℝ) < 0.7072 := by
  have hval : zscaleNorm 52 2 102 = 1 / 2 := by
    norm_num [zscaleNorm, clipQ]
  refine ⟨?_, hval, ?_, ?_⟩
  · intro q hq
    simp only [zscaleNormArr, List.mem_map] at hq
    obtain ⟨p, _, rfl⟩ := hq
    refine ⟨Real.sqrt_nonneg _, ?_⟩
    rw [Real.sqrt_le_one]
    have := zscaleNorm_le_one p vmin vmax h
    exact_mod_cast this
  · rw [hval]
    rw [show (((1 / 2 : ℚ) : ℝ)) = 1 / 2 by norm_num]
    rw [Real.lt_sqrt (by norm_num)]
    norm_num
  · rw [hval]
    rw [show (((1 / 2 : ℚ) : ℝ)) = 1 / 2 by norm_num]
    rw [Real.sqrt_lt' (by norm_num)]
    norm_num

/-- Witness for C6 at `vmin = 2 < vmax = 102` on the one-pixel buffer
`[52]`. -/
theorem zscale_in_unit_interval_witness :
    (2 : ℚ) < 102 ∧ zscaleNorm 52 2 102 = 1 / 2 :=
  ⟨by norm_num, (zscale_in_unit_interval [52] 2 102 (by norm_num)).2.1⟩

/-! ### Alpha blending (display.py lines 292-297) -/

/-- Alpha blending of the highlight color over the background, per pixel
and per channel: `final_rgb = alpha*color + background_rgb*(1.-alpha)`
with `alpha = highlighted_z` (display.py line 295). -/
def alphaBlend (alpha : ℚ) (color bg : ℚ × ℚ × ℚ) : ℚ × ℚ × ℚ :=
  (alpha * color.1 + bg.1 * (1 - alpha),
   alpha * color.2.1 + bg.2.1 * (1 - alpha),
   alpha * color.2.2 + bg.2.2 * (1 - alpha))

/-- The final RGB pixel: blended when a highlight color is configured
(`args.highlight` truthy and not the string "none"), otherwise the
background pixel unchanged (display.py lines 292-297). -/
def finalRgb (highlightColor : Option (ℚ × ℚ × ℚ)) (alpha : ℚ)
    (bg : ℚ × ℚ × ℚ) : ℚ × ℚ × ℚ :=
  match highlightColor with
  | some color => alphaBlend alpha color bg
  | none => bg

/-! ### C7: alpha blending of the highlight layer -/

/-- C7: with a configured highlight color the final pixel is
`highlighted_z * highlight_color + background_rgb * (1 - highlighted_z)`
in every channel, with `highlighted_z` as the alpha; with no highlight
color configured the background pixel is emitted unchanged; and the
concrete scenario highlight `(1,0,0)`, `alpha = 1/2`,
background `(1/5,1/5,1/5)` yields `(3/5,1/10,1/10)`. -/
theorem final_rgb_blend (alpha : ℚ) (color bg : ℚ × ℚ × ℚ) :
    finalRgb (some color) alpha bg =
      (alpha * color.1 + bg.1 * (1 - alpha),
       alpha * color.2.1 + bg.2.1 * (1 - alpha),
       alpha * color.2.2 + bg.2.2 * (1 - alpha)) ∧
    finalRgb none alpha bg = bg ∧
    finalRgb (some (1, 0, 0)) (1 / 2) (1 / 5, 1 / 5, 1 / 5) =
      (3 / 5, 1 / 10, 1 / 10) := by
  refine ⟨rfl, rfl, ?_⟩
  norm_num [finalRgb, alphaBlend]

/-! ### Low clip for the background layer (display.py lines 134-136, 269, 279-283)

`vmin` is first set to `clip_lo_noise_fraction * sqrt(mean_sky_level)`
(line 269). Just before `background_z` is computed, line 279 tests
`if args.add_noise:` — Python truthiness of the optional integer seed —
and if truthy replaces `vmin` by `clip_noise * sqrt(mean_sky_level)`.
Noise itself was added at line 135 under the different test
`if args.add_noise is not None:`. -/

/-- Python truthiness of the optional integer `args.add_noise`
(display.py line 279): `None` and `0` are falsy, any other integer truthy. -/
def pythonTruthy (addNoise : Option ℤ) : Bool :=
  match addNoise with
  | none => false
  | some n => n != 0

/-- Whether noise is actually added to the image (display.py line 135):
`if args.add_noise is not None`. -/
def noiseAdded (addNoise : Option ℤ) : Bool :=
  addNoise.isSome

/-- The multiplier of `sqrt(mean_sky_level)` used as the low clipping bound
when `background_z` is computed (display.py lines 269, 279-283): the
`--clip-noise` sigma count when `args.add_noise` is truthy, else the
`--clip-lo-noise-fraction` fraction. -/
def vminMultiplier (addNoise : Option ℤ) (clipLoNoiseFraction clipNoise : ℚ) : ℚ :=
  if pythonTruthy addNoise then clipNoise else clipLoNoiseFraction

/-! ### C5: low clip when synthetic noise was added -/

/-- C5: the code contradicts the claim at seed `0`. With `--add-noise 0`
and the default parameters (`clip_lo_noise_fraction = 0.1`,
`clip_noise = -1`), noise is added to the image (line 135 tests
`is not None`), yet the background low-clip multiplier stays at the
`clip_lo_noise_fraction` value `0.1` instead of the `clip_noise` value
`-1`, because line 279 tests Python truthiness and `0` is falsy. For any
nonzero seed the claimed multiplier is used. -/
theorem background_vmin_seed_zero :
    noiseAdded (some 0) = true ∧
    vminMultiplier (some 0) (1 / 10) (-1) = 1 / 10 ∧
    vminMultiplier (some 0) (1 / 10) (-1) ≠ -1 ∧
    vminMultiplier (some 7) (1 / 10) (-1) = -1 := by
  refine ⟨rfl, ?_, ?_, ?_⟩ <;> norm_num [vminMultiplier, pythonTruthy]

/-! ### Z-scaling source image and fallback (display.py lines 257-267) -/

/-- A selected sub-image: the pixel count of its bounds
(`selected_image.bounds.area()`) and its pixel values
(`selected_image.array`). -/
structure SubImage where
  area : ℕ
  pixels : List ℚ

/-- The pixel array used for the `vmax` percentile together with the
fallback-warning flag (display.py lines 258-264): the full survey image by
default; if a selected sub-image exists it is used instead, unless its
bounds cover fewer than 16 pixels, in which case the survey image is kept
and the warning "using full image for z-scaling ..." is printed. -/
def zscaleSource (survey : List ℚ) (sel : Option SubImage) : List ℚ × Bool :=
  match sel with
  | none => (survey, false)
  | some s => if s.area < 16 then (survey, true) else (s.pixels, false)

/-- The non-zero pixel values, as selected by `zscale_pixels != 0`
(display.py line 266). -/
def nonZeroPixels (xs : List ℚ) : List ℚ :=
  xs.filter fun p => p != 0

/-- The upper clipping bound (display.py line 267):
`np.percentile(zscale_pixels[non_zero_pixels], q = args.clip_hi_percentile)`.
The numpy percentile routine itself is external to the program, so it is a
parameter `pct` here. -/
def vmaxOf (pct : ℚ → List ℚ → ℚ) (clipHiPercentile : ℚ)
    (survey : List ℚ) (sel : Option SubImage) : ℚ :=
  pct clipHiPercentile (nonZeroPixels (zscaleSource survey sel).1)

/-! ### C8: percentile source selection and fallback warning -/

/-- C8: when a selected sub-image exists, `vmax` is the configured
percentile of the non-zero pixels of the selected sub-image whenever it
covers at least 16 pixels (no warning), and otherwise the percentile of
the non-zero pixels of the full survey image with the non-fatal fallback
warning emitted. -/
theorem vmax_source_selection (pct : ℚ → List ℚ → ℚ) (clipHiPercentile : ℚ)
    (survey : List ℚ) (s : SubImage) :
    (16 ≤ s.area →
      vmaxOf pct clipHiPercentile survey (some s) =
        pct clipHiPercentile (nonZeroPixels s.pixels) ∧
      (zscaleSource survey (some s)).2 = false) ∧
    (s.area < 16 →
      vmaxOf pct clipHiPercentile survey (some s) =
        pct clipHiPercentile (nonZeroPixels survey) ∧
      (zscaleSource survey (some s)).2 = true) := by
  constructor
  · intro hbig
    have hlt : ¬ s.area < 16 := by omega
    constructor <;> simp [vmaxOf, zscaleSource, hlt]
  · intro hsmall
    constructor <;> simp [vmaxOf, zscaleSource, hsmall]

/-- Witness for C8: a 16-pixel sub-image uses its own non-zero pixels for
the percentile, with no fallback warning. -/
theorem vmax_source_selection_witness :
    (16 ≤ (SubImage.mk 16 [3, 0, 5]).area ∧
      vmaxOf (fun _ xs => xs.headD 0) 90 [1, 2] (some (SubImage.mk 16 [3, 0, 5])) =
        (fun (_ : ℚ) (xs : List ℚ) => xs.headD 0) 90
          (nonZeroPixels [3, 0, 5]) ∧
      (zscaleSource [1, 2] (some (SubImage.mk 16 [3, 0, 5]))).2 = false) :=
  ⟨by norm_num,
    (vmax_source_selection (fun _ xs => xs.headD 0) 90 [1, 2]
      (SubImage.mk 16 [3, 0, 5])).1 (by norm_num)⟩

/-! ### Selection by group and galaxy identifiers (display.py lines 164-175)

Each `--group ID` (resp. `--galaxy ID`) is expanded to a mask via
`results.select('grp_id==%d' % identifier, format='mask')`; if the mask
has no true entry a warning is printed, and in all cases the mask is
OR-combined into the running selection. -/

/-- Elementwise OR of two aligned boolean masks, as in
`np.logical_or(selection, selected)` (display.py lines 169, 175). -/
def orMask (a b : List Bool) : List Bool :=
  List.zipWith or a b

/-- One step of identifier selection (display.py lines 165-169 and
171-175): OR the identifier's match mask into the selection; the second
component records whether the "no group/galaxy found" warning is printed,
i.e. `not np.any(selected)`. -/
def selectIdentifier (selection matchMask : List Bool) : List Bool × Bool :=
  (orMask selection matchMask, !(matchMask.any id))

/-! ### C9: identifiers matching zero rows warn and leave the mask unchanged -/

/-- C9: when a requested group or galaxy identifier matchMask zero table
rows (its match mask is all false, aligned with the selection mask), the
engine emits the non-fatal warning and the OR-combined selection mask is
unchanged. -/
theorem empty_identifier_warns_and_preserves_mask
    (selection matchMask : List Bool)
    (hlen : matchMask.length = selection.length)
    (hempty : ∀ m ∈ matchMask, m = false) :
    (selectIdentifier selection matchMask).1 = selection ∧
    (selectIdentifier selection matchMask).2 = true := by
  constructor
  · unfold selectIdentifier orMask
    induction selection generalizing matchMask with
    | nil => simp
    | cons x xs ih =>
      cases matchMask with
      | nil => simp at hlen
      | cons m ms =>
        have hm : m = false := hempty m (List.mem_cons_self m ms)
        have hms : ∀ b ∈ ms, b = false := fun b hb => hempty b (List.mem_cons_of_mem m hb)
        have hlen' : ms.length = xs.length := by simpa using hlen
        simp only [List.zipWith_cons_cons, List.cons.injEq]
        exact ⟨by rw [hm]; cases x <;> rfl, ih ms hlen' hms⟩
  · unfold selectIdentifier
    simp only [Prod.snd, Bool.not_eq_true']
    rw [List.any_eq_false]
    intro b hb
    simpa [id] using hempty b hb

/-- Witness for C9: the identifier mask `[false, false, false]` leaves the
selection `[true, false, true]` unchanged and triggers the warning. -/
theorem empty_identifier_witness :
    (selectIdentifier [true, false, true] [false, false, false]).1 =
      [true, false, true] ∧
    (selectIdentifier [true, false, true] [false, false, false]).2 = true :=
  empty_identifier_warns_and_preserves_mask [true, false, true]
    [false, false, false] (by decide) (by decide)

/-! ### Object table rows and ellipse geometry (display.py lines 321-381) -/

/-- A row of the simulated-object table, with the fields the display loop
reads: centroid offsets `dx`, `dy` (arcsec from the image center),
second-moment semi-axes `a`, `b` (arcsec) and position angle `beta`
(radians). -/
structure ObjRow where
  dx : ℚ
  dy : ℚ
  a : ℚ
  b : ℚ
  beta : ℚ

/-- Display x coordinate of a selected object's centroid:
`x_center = 0.5*results.survey.image_width + info['dx']/scale`
(display.py line 328). -/
def displayCenterX (imageWidth scale dx : ℚ) : ℚ :=
  (1 / 2) * imageWidth + dx / scale

/-- Display y coordinate of a selected object's centroid:
`y_center = 0.5*results.survey.image_height + info['dy']/scale`
(display.py line 329). -/
def displayCenterY (imageHeight scale dy : ℚ) : ℚ :=
  (1 / 2) * imageHeight + dy / scale

/-- The geometry stored for one second-moment ellipse (rational part;
the angle is handled by `npDegrees` below). -/
structure EllipseGeom where
  centerX : ℚ
  centerY : ℚ
  width : ℚ
  height : ℚ

/-- The ellipse geometry recorded for a selected object when
`--draw-moments` is set (display.py lines 368-370): center at the display
coordinates, `ellipse_widths[index] = info['a']/scale`,
`ellipse_heights[index] = info['b']/scale`. -/
def ellipseGeomOf (imageWidth imageHeight scale : ℚ) (row : ObjRow) : EllipseGeom :=
  { centerX := displayCenterX imageWidth scale row.dx
    centerY := displayCenterY imageHeight scale row.dy
    width := row.a / scale
    height := row.b / scale }

/-- The recorded ellipse angle `np.degrees(info['beta'])`
(display.py line 371): conversion from radians to degrees. -/
noncomputable def npDegrees (x : ℚ) : ℝ :=
  (x : ℝ) * 180 / Real.pi

/-- A matched detection-catalog row: pixel coordinates `X_IMAGE`,
`Y_IMAGE`, and the shape fields `A_IMAGE`, `B_IMAGE`, `THETA_IMAGE`, which
a SExtractor catalog may lack (`none`). -/
structure MatchRow where
  xImage : ℚ
  yImage : ℚ
  aImage : Option ℚ
  bImage : Option ℚ
  thetaImage : Option ℚ

/-- A matched-catalog ellipse: center at the match display coordinates
(`X_IMAGE - 0.5`, `Y_IMAGE - 0.5`, display.py lines 331-332), width
`A_IMAGE`, height `B_IMAGE`, angle `THETA_IMAGE` (already in degrees). -/
structure MatchEllipse where
  centerX : ℚ
  centerY : ℚ
  width : ℚ
  height : ℚ
  angle : ℚ

/-- The matched-catalog ellipse for a match row (display.py lines
372-381): built from the catalog shape fields, and silently omitted
(the `except IndexError: pass` branch) when any of them is absent. -/
def matchEllipseOf (m : MatchRow) : Option MatchEllipse :=
  match m.aImage, m.bImage, m.thetaImage with
  | some a, some b, some t =>
      some ⟨m.xImage - 1 / 2, m.yImage - 1 / 2, a, b, t⟩
  | _, _, _ => none

/-! ### C4: second-moment ellipse geometry -/

/-- C4 counterexample: the claim states `width = 2*a/scale`, but for the
object with `a = b = 1` at scale `1/2` the code records
`ellipse_widths[index] = info['a']/scale = 2`, not `2*a/scale = 4`
(and likewise for the height). -/
theorem ellipse_width_counterexample :
    (ellipseGeomOf 100 100 (1 / 2) ⟨0, 0, 1, 1, 0⟩).width = 2 ∧
    2 * (1 : ℚ) / (1 / 2) = 4 ∧
    (ellipseGeomOf 100 100 (1 / 2) ⟨0, 0, 1, 1, 0⟩).width ≠
      2 * (1 : ℚ) / (1 / 2) := by
  norm_num [ellipseGeomOf]

/-- C4 amended: for every selected object, when the ellipse overlay is
requested, the computed geometry has center at the object's display
coordinates, `width = a/scale`, `height = b/scale`, and angle
`degrees(beta)`; the matched-catalog ellipse is silently omitted (`none`)
whenever the catalog lacks any of the required shape fields. -/
theorem ellipse_geometry_amended (imageWidth imageHeight scale : ℚ)
    (row : ObjRow) (m : MatchRow)
    (hmissing : m.aImage = none ∨ m.bImage = none ∨ m.thetaImage = none) :
    (ellipseGeomOf imageWidth imageHeight scale row).centerX =
      (1 / 2) * imageWidth + row.dx / scale ∧
    (ellipseGeomOf imageWidth imageHeight scale row).centerY =
      (1 / 2) * imageHeight + row.dy / scale ∧
    (ellipseGeomOf imageWidth imageHeight scale row).width = row.a / scale ∧
    (ellipseGeomOf imageWidth imageHeight scale row).height = row.b / scale ∧
    npDegrees row.beta = (row.beta : ℝ) * 180 / Real.pi ∧
    matchEllipseOf m = none := by
  refine ⟨rfl, rfl, rfl, rfl, rfl, ?_⟩
  unfold matchEllipseOf
  rcases hmissing with h | h | h <;> rw [h] <;>
    rcases m.aImage with _ | av <;> rcases m.bImage with _ | bv <;>
      rcases m.thetaImage with _ | tv <;> rfl

/-- Witness for C4 (amended) on a match row lacking the `A_IMAGE` shape
field. -/
theorem ellipse_geometry_amended_witness :
    ((MatchRow.mk 10 20 none none none).aImage = none ∨
      (MatchRow.mk 10 20 none none none).bImage = none ∨
      (MatchRow.mk 10 20 none none none).thetaImage = none) ∧
    (ellipseGeomOf 100 100 (1 / 2) ⟨3, 4, 1, 1, 0⟩).width = 1 / (1 / 2) ∧
    matchEllipseOf (MatchRow.mk 10 20 none none none) = none :=
  ⟨Or.inl rfl,
    (ellipse_geometry_amended 100 100 (1 / 2) ⟨3, 4, 1, 1, 0⟩
      (MatchRow.mk 10 20 none none none) (Or.inl rfl)).2.2.1,
    (ellipse_geometry_amended 100 100 (1 / 2) ⟨3, 4, 1, 1, 0⟩
      (MatchRow.mk 10 20 none none none) (Or.inl rfl)).2.2.2.2.2⟩

/-! ### Region selection cuts (display.py lines 146-160)

A `--select-region [XMIN,XMAX,YMIN,YMAX]` rectangle is appended to the
cut list as
`args.select.extend(['dx>=%f'%xmin,'dx<%f'%xmax,'dy>=%f'%ymin,'dy<%f'%ymax])`
(line 155) and the combined cuts are evaluated with
`results.select(*args.select, mode='and', format='mask')` (line 160).
Note the `'%f'` interpolation renders each bound with six decimal places. -/

/-- A column a cut can reference. -/
inductive Col where
  | dx : Col
  | dy : Col

/-- A comparison operator of a cut expression. -/
inductive CmpOp where
  | le : CmpOp
  | lt : CmpOp
  | ge : CmpOp
  | gt : CmpOp
  | eq : CmpOp
  | ne : CmpOp

/-- A cut expression `<column><operator><value>`. -/
structure Cut where
  col : Col
  op : CmpOp
  value : ℚ

/-- The value of a column in a table row. -/
def colValue (row : ObjRow) : Col → ℚ
  | Col.dx => row.dx
  | Col.dy => row.dy

/-- Modelled from the spec: the Predicate Evaluator (spec §4.1) lives in
the external `descwl.output` package, not in `display.py`; per the spec a
cut `<column><operator><value>` with operators `==,!=,>=,<=,>,<` performs
the numeric comparison of the column value against the literal. -/
def evalCut (row : ObjRow) (c : Cut) : Bool :=
  match c.op with
  | CmpOp.le => decide (colValue row c.col ≤ c.value)
  | CmpOp.lt => decide (colValue row c.col < c.value)
  | CmpOp.ge => decide (c.value ≤ colValue row c.col)
  | CmpOp.gt => decide (c.value < colValue row c.col)
  | CmpOp.eq => decide (colValue row c.col = c.value)
  | CmpOp.ne => decide (colValue row c.col ≠ c.value)

/-- Modelled from the spec: `mode='and'` combination of cut expressions
(spec §4.1) — every clause must hold. -/
def evalAnd (cuts : List Cut) (row : ObjRow) : Bool :=
  cuts.all (evalCut row)

/-- The `'%f'` string interpolation of display.py line 155 renders a bound
with six decimal places, i.e. rounds it to the nearest multiple of
`10⁻⁶` (the inputs considered here are never exact ties, so the tie
direction is immaterial). -/
def fmt6 (q : ℚ) : ℚ :=
  (round (q * 1000000) : ℤ) / 1000000

/-- The four cut expressions appended for a select-region rectangle
(display.py line 155):
`dx>=%f, dx<%f, dy>=%f, dy<%f` with the six-decimal-rendered bounds. -/
def regionCuts (xmin xmax ymin ymax : ℚ) : List Cut :=
  [⟨Col.dx, CmpOp.ge, fmt6 xmin⟩, ⟨Col.dx, CmpOp.lt, fmt6 xmax⟩,
   ⟨Col.dy, CmpOp.ge, fmt6 ymin⟩, ⟨Col.dy, CmpOp.lt, fmt6 ymax⟩]

/-- Selection of a row by the user cuts together with a select-region
rectangle, AND-combined (display.py lines 155, 158-160). -/
def selectWithRegion (other : List Cut) (xmin xmax ymin ymax : ℚ)
    (row : ObjRow) : Bool :=
  evalAnd (other ++ regionCuts xmin xmax ymin ymax) row

/-! ### C10: half-open region selection -/

/-- C10 counterexample: for the valid select-region rectangle
`[0.0000006, 1, 0, 1]`, the object at `dx = 0.0000006 = xmin`, `dy = 0`
satisfies `dx >= xmin`, `dx < xmax`, `dy >= ymin`, `dy < ymax`, so the
claim says it is selected; but the `'%f'` interpolation renders the first
cut as `dx>=0.000001`, and the object is not selected. -/
theorem region_cut_rounding_counterexample :
    ((3 : ℚ) / 5000000 ≥ 3 / 5000000 ∧ (3 : ℚ) / 5000000 < 1 ∧
      (0 : ℚ) ≥ 0 ∧ (0 : ℚ) < 1 ∧ (3 : ℚ) / 5000000 < 1) ∧
    fmt6 (3 / 5000000) = 1 / 1000000 ∧
    selectWithRegion [] (3 / 5000000) 1 0 1 ⟨3 / 5000000, 0, 0, 0, 0⟩ = false := by
  refine ⟨by norm_num, ?_, ?_⟩
  · norm_num [fmt6, round_eq]
  · have hcut : evalCut ⟨3 / 5000000, 0, 0, 0, 0⟩
        ⟨Col.dx, CmpOp.ge, fmt6 (3 / 5000000)⟩ = false := by
      simp only [evalCut, colValue, decide_eq_false_iff_not, not_le]
      rw [show fmt6 (3 / 5000000) = 1 / 1000000 by norm_num [fmt6, round_eq]]
      norm_num
    simp [selectWithRegion, evalAnd, regionCuts, hcut]

/-- C10 amended: the select-region rectangle is expanded into exactly the
four cut expressions `dx>=fmt(xmin)`, `dx<fmt(xmax)`, `dy>=fmt(ymin)`,
`dy<fmt(ymax)` where `fmt` renders the bound with six decimal places,
AND-combined with any other cuts. For bounds exactly representable with
six decimal places the interval is therefore half-open: selection is
equivalent to the other cuts plus `dx>=xmin ∧ dx<xmax ∧ dy>=ymin ∧
dy<ymax`; an object with `dx = xmin` and `dy = ymin` passing the other
cuts is selected, while an object with `dx = xmax` (or `dy = ymax`) is
not. -/
theorem region_selection_half_open (other : List Cut)
    (xmin xmax ymin ymax : ℚ) (row : ObjRow)
    (h1 : fmt6 xmin = xmin) (h2 : fmt6 xmax = xmax)
    (h3 : fmt6 ymin = ymin) (h4 : fmt6 ymax = ymax)
    (hx : xmin < xmax) (hy : ymin < ymax) :
    (selectWithRegion other xmin xmax ymin ymax row =
      (evalAnd other row && (decide (xmin ≤ row.dx) && decide (row.dx < xmax) &&
        decide (ymin ≤ row.dy) && decide (row.dy < ymax)))) ∧
    (row.dx = xmin → row.dy = ymin → evalAnd other row = true →
      selectWithRegion other xmin xmax ymin ymax row = true) ∧
    (row.dx = xmax → selectWithRegion other xmin xmax ymin ymax row = false) ∧
    (row.dy = ymax → selectWithRegion other xmin xmax ymin ymax row = false) := by
  have hmain : selectWithRegion other xmin xmax ymin ymax row =
      (evalAnd other row && (decide (xmin ≤ row.dx) && decide (row.dx < xmax) &&
        decide (ymin ≤ row.dy) && decide (row.dy < ymax))) := by
    unfold selectWithRegion evalAnd regionCuts
    rw [List.all_append]
    simp only [List.all_cons, List.all_nil, evalCut, colValue, h1, h2, h3, h4]
    cases hodx : decide (xmin ≤ row.dx) <;>
      cases hodx2 : decide (row.dx < xmax) <;>
        cases hody : decide (ymin ≤ row.dy) <;>
          cases hody2 : decide (row.dy < ymax) <;>
            cases hother : other.all (evalCut row) <;> rfl
  refine ⟨hmain, ?_, ?_, ?_⟩
  · intro hdx hdy hother
    rw [hmain, hother, hdx, hdy]
    simp [hx, hy, hx.le, hy.le]
  · intro hdx
    rw [hmain, hdx]
    simp
  · intro hdy
    rw [hmain, hdy]
    simp

/-- Witness for C10 (amended) at the rectangle `[0,1,0,1]` with no other
cuts and the boundary object `dx = 0 = xmin`, `dy = 0 = ymin`. -/
theorem region_selection_half_open_witness :
    fmt6 0 = 0 ∧ fmt6 1 = 1 ∧ (0 : ℚ) < 1 ∧
    selectWithRegion [] 0 1 0 1 ⟨0, 0, 0, 0, 0⟩ = true :=
  ⟨by norm_num [fmt6, round_eq], by norm_num [fmt6, round_eq], by norm_num,
    (region_selection_half_open [] 0 1 0 1 ⟨0, 0, 0, 0, 0⟩
      (by norm_num [fmt6, round_eq]) (by norm_num [fmt6, round_eq])
      (by norm_num [fmt6, round_eq]) (by norm_num [fmt6, round_eq])
      (by norm_num) (by norm_num)).2.1 rfl rfl rfl⟩

end Display
